import Mathlib

/-!
# Verification of the Cloudflare letsencrypt hook (`hook.py`)

A shallow embedding of `hook.py`.  The Cloudflare HTTP API and the DNS
resolver library are modelled as oracles/state passed explicitly; every
network interaction of the embedded code is recorded in an event trace so
that ordering and counting claims can be stated.  Python `sys.exit(1)`,
`ValueError` (tuple unpacking) and `IndexError` (list indexing) are
modelled with an `Except` error channel; the event trace is returned in
all cases, matching the observable behaviour of the aborted process.
-/

namespace CFHook

/-- One entry of the module-level `CF_HEADERS` list: either a bearer-token
header set or an email/key header set (hook.py lines 26-37). -/
inductive AuthHeader where
  | bearer (token : String)
  | emailKey (email key : String)
deriving DecidableEq, Repr

/-- Which fatal error message `_get_zone_id` logs before `sys.exit(1)`
(hook.py lines 83-86): the token-permissions message when `CF_API_TOKEN`
is in the environment, the zone-absent message otherwise. -/
inductive FatalMsg where
  | tokenPerms
  | zoneAbsent
deriving DecidableEq, Repr

/-- Abnormal outcomes of the embedded Python code: `exit c m` models
`sys.exit(c)` after logging message `m`; `valueError` models the
`ValueError` of unpacking a list whose length is not 3; `indexError`
models an out-of-range list index. -/
inductive Err where
  | exit (code : Nat) (msg : FatalMsg)
  | valueError
  | indexError
deriving DecidableEq, Repr

/-- The JSON payload of the record-creation POST (hook.py lines 117-122). -/
structure TxtPayload where
  typ : String
  name : String
  content : String
  ttl : Nat
deriving DecidableEq, Repr

/-- A TXT record as stored by the provider: the creation payload fields
plus the provider-assigned id. -/
structure TxtRec where
  typ : String
  name : String
  content : String
  ttl : Nat
  id : String
deriving DecidableEq, Repr

/-- Cloudflare-side mutable state: the DNS records of every zone (paired
with their zone id) and a counter from which fresh record ids are drawn. -/
structure Provider where
  records : List (String × TxtRec)
  nextId : Nat
deriving DecidableEq, Repr

/-- Observable network/sleep events of the embedded code, in program
order.  `zoneGet` is the zone-list GET of `_get_zone_id`; `recGet` the
filtered record lookup of `_get_txt_record_id` (the filter type is always
TXT in the URL, so it is not a field); `recPost` the record-creation POST;
`recDelete` the record deletion; `dnsQuery` a TXT resolution (with the
nameserver list actually used, `none` = system default); `sleepEv` a
`time.sleep`. -/
inductive Ev where
  | zoneGet (auth : AuthHeader) (tld : String)
  | recGet (auth : AuthHeader) (zoneId name content : String)
  | recPost (auth : AuthHeader) (zoneId : String) (payload : TxtPayload)
  | recDelete (auth : AuthHeader) (zoneId recordId : String)
  | dnsQuery (servers : Option (List String)) (name : String)
  | sleepEv (seconds : Nat)
deriving DecidableEq, Repr

/-- A `dns.exception.DNSException` raised by the resolver.  All four
resolver-level failures are subclasses of `DNSException` and are caught
by the same `except` clause of `_has_dns_propagated`. -/
inductive DnsErr where
  | timeout
  | nxdomain
  | servfail
  | noAnswer
deriving DecidableEq, Repr

/-- The outcome of one TXT resolution: an exception, or a list of TXT
answer rdatas, each carrying its decoded character-string set. -/
def DnsRes : Type := Except DnsErr (List (List String))

/-- Helper for `pySplit`: scan the character list, accumulating the
current (reversed) word, emitting it at each whitespace run or at the
end. -/
def splitWsAux : List Char → List Char → List String
  | [], acc => if acc.isEmpty then [] else [String.mk acc.reverse]
  | c :: cs, acc =>
      if c.isWhitespace then
        if acc.isEmpty then splitWsAux cs []
        else String.mk acc.reverse :: splitWsAux cs []
      else splitWsAux cs (c :: acc)

/-- Python `str.split()` with no argument: split on runs of whitespace,
dropping empty pieces. -/
def pySplit (s : String) : List String :=
  splitWsAux s.toList []

/-- The process environment fields read by the module-level credential
code (hook.py lines 22-45); `none` means the variable is absent
(`os.environ[...]` raises `KeyError`). -/
structure Env where
  CF_API_TOKEN : Option String
  CF_EMAIL : Option String
  CF_KEY : Option String
deriving DecidableEq, Repr

/-- Module-level construction of `CF_HEADERS` (hook.py lines 22-45).
If `CF_API_TOKEN` is present its whitespace-split tokens become bearer
headers and the email/key branch is never reached (it sits in the
`except KeyError`); otherwise, if both `CF_EMAIL` and `CF_KEY` are
present, their splits are zipped into email/key headers, and if either
is absent the process exits 1.  Finally `if not CF_HEADERS: sys.exit(1)`
rejects an empty header list.  `Except.error 1` models `sys.exit(1)`;
no network call is involved anywhere in this initialisation. -/
def CF_HEADERS (env : Env) : Except Nat (List AuthHeader) :=
  match env.CF_API_TOKEN with
  | some tok =>
      let hs := (pySplit tok).map AuthHeader.bearer
      if hs.isEmpty then Except.error 1 else Except.ok hs
  | none =>
      match env.CF_EMAIL, env.CF_KEY with
      | some emails, some keys =>
          let hs := (List.zip (pySplit emails) (pySplit keys)).map
            (fun p => AuthHeader.emailKey p.1 p.2)
          if hs.isEmpty then Except.error 1 else Except.ok hs
      | _, _ => Except.error 1

/-- The nameserver list `_has_dns_propagated` actually queries with:
`if dns_servers:` (hook.py line 56) is Python truthiness, so an absent
variable (`dns_servers = False`) and an empty list both fall through to
the system-default resolver; a non-empty list configures a custom
resolver. -/
def effectiveServers : Option (List String) → Option (List String)
  | none => none
  | some l => if l = [] then none else some l

/-- `_has_dns_propagated` (hook.py lines 54-70).  `query` is the resolver
oracle: its first argument is the nameserver configuration actually in
effect.  One TXT query is issued; the function returns `true` iff the
answer arrives and some rdata's decoded string set contains the token
exactly; any `DNSException` yields `false`.  The returned trace records
the single query. -/
def _has_dns_propagated (dns_servers : Option (List String))
    (query : Option (List String) → String → DnsRes)
    (domain_name token : String) : List Ev × Bool :=
  let eff := effectiveServers dns_servers
  ([Ev.dnsQuery eff domain_name],
   match query eff domain_name with
   | Except.error _ => false
   | Except.ok rdatas => rdatas.any (fun rd => rd.contains token))

/-- The static part of the environment/provider the record operations
run against: the `CF_HEADERS` list, whether `CF_API_TOKEN` is in the
environment (hook.py line 83), the `CF_DNS_SERVERS` configuration
(hook.py lines 47-51, `none` = unset), the `tld.get_fld` oracle, and the
provider's fresh-record-id supply. -/
structure Model where
  headers : List AuthHeader
  tokenSet : Bool
  dnsServers : Option (List String)
  fld : String → String
  zoneList : AuthHeader → String → List String
  freshId : Nat → String

/-- The `for auth in CF_HEADERS` loop of `_get_zone_id` (hook.py lines
77-82): GET the zone list for `tld` under each header set in order,
returning at the first non-empty result list with that header set and
the first result's id. -/
def zone_lookup_loop (zoneList : AuthHeader → String → List String)
    (tld : String) : List AuthHeader → List Ev × Option (AuthHeader × String)
  | [] => ([], none)
  | a :: rest =>
      let r := zoneList a tld
      if r = [] then
        let (tr, res) := zone_lookup_loop zoneList tld rest
        (Ev.zoneGet a tld :: tr, res)
      else
        ([Ev.zoneGet a tld], some (a, r.headD ""))

/-- `_get_zone_id` (hook.py lines 74-87): compute the registrable domain
with `get_fld('http://' + domain)`, try each auth context in order, and
on exhaustion log the token-permissions message when `CF_API_TOKEN` is
in the environment (else the zone-absent message) and `sys.exit(1)`. -/
def _get_zone_id (M : Model) (domain : String) :
    List Ev × Except Err (AuthHeader × String) :=
  match zone_lookup_loop M.zoneList (M.fld ("http://" ++ domain)) M.headers with
  | (tr, some p) => (tr, Except.ok p)
  | (tr, none) =>
      (tr, Except.error (Err.exit 1
        (if M.tokenSet then FatalMsg.tokenPerms else FatalMsg.zoneAbsent)))

/-- Does a stored record match the server-side filter
`type=TXT&name=...&content=...` of the record-lookup URL, within the
given zone? -/
def recMatches (zoneId name content : String) (p : String × TxtRec) : Bool :=
  p.1 == zoneId && p.2.typ == "TXT" && p.2.name == name && p.2.content == content

/-- `_get_txt_record_id` (hook.py lines 90-100): GET the records of the
zone filtered by type TXT, name and content; return the first match's id,
or `none` on an empty result (`IndexError` branch, a normal outcome). -/
def _get_txt_record_id (st : Provider) (auth : AuthHeader)
    (zone_id name token : String) : List Ev × Option String :=
  ([Ev.recGet auth zone_id name token],
   ((st.records.filter (recMatches zone_id name token)).head?).map
     (fun p => p.2.id))

/-- Python truthiness of the looked-up record id (`if record_id:`,
hook.py lines 112 and 140): `None` and the empty string are falsy. -/
def pyTruthy : Option String → Bool
  | none => false
  | some s => s != ""

/-- `create_txt_record` (hook.py lines 104-126): unpack the argument
triple (a `ValueError` if its length is not 3), resolve the zone, look
up an existing record under `_acme-challenge.<domain>` with the token as
content, short-circuit if one is found, else POST the fixed-field
payload; the provider stores the new record under a fresh id. -/
def create_txt_record (M : Model) (st : Provider) (args : List String) :
    List Ev × Except Err Provider :=
  match args with
  | [domain, _challenge, token] =>
      let (trZ, rz) := _get_zone_id M domain
      match rz with
      | Except.error e => (trZ, Except.error e)
      | Except.ok (auth, zone_id) =>
          let name := "_acme-challenge." ++ domain
          let (trG, record_id) := _get_txt_record_id st auth zone_id name token
          if pyTruthy record_id then
            (trZ ++ trG, Except.ok st)
          else
            let rid := M.freshId st.nextId
            let payload : TxtPayload :=
              { typ := "TXT", name := name, content := token, ttl := 120 }
            let stored : TxtRec :=
              { typ := "TXT", name := name, content := token, ttl := 120,
                id := rid }
            (trZ ++ trG ++ [Ev.recPost auth zone_id payload],
             Except.ok { records := st.records ++ [(zone_id, stored)],
                         nextId := st.nextId + 1 })
  | _ => ([], Except.error Err.valueError)

/-- `delete_txt_record` (hook.py lines 130-146): read `args[0]` and
`args[2]` (an `IndexError` if absent), return immediately on a falsy
domain, else resolve the zone, look the record id up by name and
content, and DELETE it when found (a logged no-op otherwise). -/
def delete_txt_record (M : Model) (st : Provider) (args : List String) :
    List Ev × Except Err Provider :=
  match args.get? 0, args.get? 2 with
  | some domain, some token =>
      if domain = "" then ([], Except.ok st)
      else
        let (trZ, rz) := _get_zone_id M domain
        match rz with
        | Except.error e => (trZ, Except.error e)
        | Except.ok (auth, zone_id) =>
            let name := "_acme-challenge." ++ domain
            let (trG, record_id) := _get_txt_record_id st auth zone_id name token
            match record_id with
            | some rid =>
                if rid != "" then
                  (trZ ++ trG ++ [Ev.recDelete auth zone_id rid],
                   Except.ok { st with
                     records := st.records.filter (fun p => p.2.id != rid) })
                else (trZ ++ trG, Except.ok st)
            | none => (trZ ++ trG, Except.ok st)
  | _, _ => ([], Except.error Err.indexError)

/-- The slicing `args[i:i+3]` of the `range(0, len(args), 3)` loops
(hook.py lines 170 and 185): the list cut into successive groups of
three, the final group possibly shorter. -/
def chunks3 : List String → List (List String)
  | [] => []
  | a :: b :: c :: rest => [a, b, c] :: chunks3 rest
  | [a] => [[a]]
  | [a, b] => [[a, b]]

/-- The first loop of `create_all_txt_records` (hook.py lines 170-171):
run `create_txt_record` on each slice in order, threading the provider
state; an exception aborts the loop, keeping the trace so far. -/
def run_creates (M : Model) (st : Provider) :
    List (List String) → List Ev × Except Err Provider
  | [] => ([], Except.ok st)
  | c :: cs =>
      let (tr, r) := create_txt_record M st c
      match r with
      | Except.error e => (tr, Except.error e)
      | Except.ok st2 =>
          let (tr2, r2) := run_creates M st2 cs
          (tr ++ tr2, r2)

/-- The loop body of `delete_all_txt_records` (hook.py lines 185-186),
analogous to `run_creates`. -/
def run_deletes (M : Model) (st : Provider) :
    List (List String) → List Ev × Except Err Provider
  | [] => ([], Except.ok st)
  | c :: cs =>
      let (tr, r) := delete_txt_record M st c
      match r with
      | Except.error e => (tr, Except.error e)
      | Except.ok st2 =>
          let (tr2, r2) := run_deletes M st2 cs
          (tr ++ tr2, r2)

/-- `delete_all_txt_records` (hook.py lines 183-186). -/
def delete_all_txt_records (M : Model) (st : Provider) (args : List String) :
    List Ev × Except Err Provider :=
  run_deletes M st (chunks3 args)

/-- The `while(_has_dns_propagated(name, token) == False)` loop of
`create_all_txt_records` (hook.py lines 178-180).  `dns k` is the
outcome of the `k`-th TXT query the whole batch issues (a global query
clock threads through the batch); `fuel` bounds the unrolling of the
source's unbounded loop, `none` meaning the loop was still running when
the fuel ran out.  On success it returns the events (each failed query
followed by a 30-second sleep, then the successful query) and the
advanced clock. -/
def pollDomain (M : Model) (dns : Nat → DnsRes) (name token : String) :
    Nat → Nat → Option (List Ev × Nat)
  | _, 0 => none
  | clock, fuel + 1 =>
      let (tr, ok) :=
        _has_dns_propagated M.dnsServers (fun _ _ => dns clock) name token
      if ok then some (tr, clock + 1)
      else
        match pollDomain M dns name token (clock + 1) fuel with
        | none => none
        | some (tr2, c2) => some (tr ++ Ev.sleepEv 30 :: tr2, c2)

/-- The second loop of `create_all_txt_records` (hook.py lines 175-180):
for each slice in order, read `args[i]` and `args[i+2]` (an `IndexError`
if the slice is short), build the `_acme-challenge.` name, and block in
`pollDomain` until the record has propagated before moving on.  Returns
the trace and the final query clock. -/
def poll_phase (M : Model) (dns : Nat → DnsRes) :
    Nat → List (List String) → Nat → Option (List Ev × Except Err Nat)
  | clock, [], _ => some ([], Except.ok clock)
  | clock, c :: cs, fuel =>
      match c.get? 0, c.get? 2 with
      | some domain, some token =>
          let name := "_acme-challenge." ++ domain
          match pollDomain M dns name token clock fuel with
          | none => none
          | some (tr, clock2) =>
              match poll_phase M dns clock2 cs fuel with
              | none => none
              | some (tr2, r2) => some (tr ++ tr2, r2)
      | _, _ => some ([], Except.error Err.indexError)

/-- `create_all_txt_records` (hook.py lines 167-180): create every
record in input order, sleep the settle time, then poll each domain in
input order.  `settle` is `int(os.environ.get('CF_SETTLE_TIME', '10'))`;
an exception in the create loop aborts before the sleep; `none` models
the poll loop still running when `fuel` ran out. -/
def create_all_txt_records (M : Model) (settle : Nat) (dns : Nat → DnsRes)
    (st : Provider) (args : List String) (fuel : Nat) :
    Option (List Ev × Except Err Provider) :=
  let (tr1, r1) := run_creates M st (chunks3 args)
  match r1 with
  | Except.error e => some (tr1, Except.error e)
  | Except.ok st1 =>
      match poll_phase M dns 0 (chunks3 args) fuel with
      | none => none
      | some (tr2, r2) =>
          some (tr1 ++ Ev.sleepEv settle :: tr2, r2.map (fun _ => st1))

/-- Is the event an HTTP call to the provider API (as opposed to a DNS
query or a sleep)? -/
def isProviderEv : Ev → Bool
  | Ev.zoneGet _ _ => true
  | Ev.recGet _ _ _ _ => true
  | Ev.recPost _ _ _ => true
  | Ev.recDelete _ _ _ => true
  | Ev.dnsQuery _ _ => false
  | Ev.sleepEv _ => false

/-- Is the event a record-creation POST? -/
def isPost : Ev → Bool
  | Ev.zoneGet _ _ => false
  | Ev.recGet _ _ _ _ => false
  | Ev.recPost _ _ _ => true
  | Ev.recDelete _ _ _ => false
  | Ev.dnsQuery _ _ => false
  | Ev.sleepEv _ => false

/-- Number of record-creation POSTs in a trace. -/
def countPosts (tr : List Ev) : Nat :=
  (tr.filter isPost).length

/-- The event pattern of one domain's poll loop with `k` failed
attempts: each failed query is followed by a 30-second sleep, and the
final query succeeds. -/
def pollGroup (servers : Option (List String)) (name : String) :
    Nat → List Ev
  | 0 => [Ev.dnsQuery servers name]
  | k + 1 => Ev.dnsQuery servers name :: Ev.sleepEv 30 :: pollGroup servers name k

/-- The boolean outcome of the propagation check issued at query clock
`k`. -/
def checkAt (M : Model) (dns : Nat → DnsRes) (name token : String)
    (k : Nat) : Bool :=
  (_has_dns_propagated M.dnsServers (fun _ _ => dns k) name token).2

/-- Flatten a list of (domain, challenge, token) triples into the flat
argument list the hook receives for `deploy_challenge`/`clean_challenge`. -/
def flatTriples : List (String × String × String) → List String
  | [] => []
  | (a, b, c) :: ts => a :: b :: c :: flatTriples ts

/-- One triple as the slice `create_all_txt_records` sees. -/
def tripleChunk (t : String × String × String) : List String :=
  [t.1, t.2.1, t.2.2]

/-- The query clock at which domain `i`'s poll loop starts, when the
previous domains took `ks` failed attempts each: every earlier domain
contributed its failures plus one success. -/
def pollStart (ks : List Nat) (i : Nat) : Nat :=
  (ks.take i).sum + i

/-- A small concrete model used to exercise the theorems: two bearer
contexts of which only the second can see the zone `z9`, no custom DNS
servers, and a counter-based record-id supply. -/
def sampleModel : Model where
  headers := [AuthHeader.bearer "t1", AuthHeader.bearer "t2"]
  tokenSet := true
  dnsServers := none
  fld := fun _ => "example.com"
  zoneList := fun a _ => if a = AuthHeader.bearer "t2" then ["z9"] else []
  freshId := fun n => "cf" ++ toString n

/-- A concrete resolver oracle whose every answer is a single TXT record
containing the string `tok`. -/
def sampleDns : Nat → DnsRes :=
  fun _ => Except.ok [["tok"]]

end CFHook

namespace CFHook

/-- C5: with `CF_API_TOKEN` set to a string whose whitespace split is
non-empty, credential resolution succeeds and yields exactly one bearer
context per token, in the order the tokens appear; `CF_EMAIL`/`CF_KEY`
contribute nothing (the environment is otherwise arbitrary, so both may
be set). -/
theorem cf_headers_token_contexts (env : Env) (t : String)
    (h : env.CF_API_TOKEN = some t) (hne : pySplit t ≠ []) :
    CF_HEADERS env = Except.ok ((pySplit t).map AuthHeader.bearer) ∧
    ((pySplit t).map AuthHeader.bearer).length = (pySplit t).length := by
  refine ⟨?_, by simp⟩
  unfold CF_HEADERS
  rw [h]
  simp [List.isEmpty_iff, hne]

theorem cf_headers_token_contexts_w :
    CF_HEADERS ⟨some "a b", some "e", some "k"⟩ =
      Except.ok ((pySplit "a b").map AuthHeader.bearer) ∧
    ((pySplit "a b").map AuthHeader.bearer).length = (pySplit "a b").length :=
  cf_headers_token_contexts ⟨some "a b", some "e", some "k"⟩ "a b" rfl (by decide)

/-- C6: with no `CF_API_TOKEN` and at least one of `CF_EMAIL`/`CF_KEY`
absent, credential resolution fails with exit code 1.  The embedding of
the initialisation is a pure function of the environment: it contains no
provider or DNS interaction, so the exit happens before any network
call. -/
theorem cf_headers_no_creds_exit (env : Env)
    (h1 : env.CF_API_TOKEN = none)
    (h2 : env.CF_EMAIL = none ∨ env.CF_KEY = none) :
    CF_HEADERS env = Except.error 1 := by
  unfold CF_HEADERS
  rw [h1]
  rcases h2 with h2 | h2 <;> rw [h2] <;> cases henv : env.CF_EMAIL <;>
    cases henv2 : env.CF_KEY <;> simp_all


theorem cf_headers_no_creds_exit_w :
    CF_HEADERS ⟨none, none, some "k"⟩ = Except.error 1 :=
  cf_headers_no_creds_exit ⟨none, none, some "k"⟩ rfl (Or.inl rfl)

/-- C9: with `CF_API_TOKEN` present but splitting to no tokens
(empty/whitespace-only), the header list built from it is empty, the
email/key branch is never consulted (it lives in the `except KeyError`
arm, and no `KeyError` is raised), and the final emptiness check exits 1
— even when valid `CF_EMAIL`/`CF_KEY` are also set. -/
theorem cf_headers_blank_token_exit (env : Env) (t : String)
    (h : env.CF_API_TOKEN = some t) (hb : pySplit t = []) :
    CF_HEADERS env = Except.error 1 := by
  unfold CF_HEADERS
  rw [h]
  simp [hb]

theorem cf_headers_blank_token_exit_w :
    CF_HEADERS ⟨some "  ", some "e", some "k"⟩ = Except.error 1 :=
  cf_headers_blank_token_exit ⟨some "  ", some "e", some "k"⟩ "  " rfl (by decide)

/-- C2: `_has_dns_propagated` issues exactly one TXT query — to the
`CF_DNS_SERVERS` list when it is configured (non-empty), to the system
default resolver otherwise — returns `true` iff some returned rdata's
decoded string set contains the exact token, and returns `false` on
every resolver exception; the single-element trace shows it performs no
retries. -/
theorem has_propagated_correct (servers : Option (List String))
    (query : Option (List String) → String → DnsRes) (name token : String) :
    (_has_dns_propagated servers query name token).1 =
      [Ev.dnsQuery (effectiveServers servers) name] ∧
    (∀ l, servers = some l → l ≠ [] → effectiveServers servers = some l) ∧
    (servers = none → effectiveServers servers = none) ∧
    ((_has_dns_propagated servers query name token).2 = true ↔
      ∃ rdatas, query (effectiveServers servers) name = Except.ok rdatas ∧
        ∃ rd ∈ rdatas, token ∈ rd) ∧
    (∀ e, query (effectiveServers servers) name = Except.error e →
      (_has_dns_propagated servers query name token).2 = false) := by
  refine ⟨rfl, ?_, ?_, ?_, ?_⟩
  · intro l hl hne
    simp [hl, effectiveServers, hne]
  · intro h
    simp [h, effectiveServers]
  · unfold _has_dns_propagated
    cases hq : query (effectiveServers servers) name with
    | error e => simp [hq]
    | ok rdatas =>
        simp only [hq, List.any_eq_true, List.contains, List.elem_eq_mem,
          decide_eq_true_eq]
        constructor
        · rintro ⟨rd, hrd, htok⟩
          exact ⟨rdatas, rfl, rd, hrd, htok⟩
        · rintro ⟨rd2, h2, rd, hrd, htok⟩
          cases Except.ok.inj h2
          exact ⟨rd, hrd, htok⟩
  · intro e he
    unfold _has_dns_propagated
    simp [he]

theorem has_propagated_correct_w :
    (_has_dns_propagated (some ["1.1.1.1"])
        (fun _ _ => Except.ok [["tok"]]) "n" "tok").1 =
      [Ev.dnsQuery (effectiveServers (some ["1.1.1.1"])) "n"] ∧
    (_has_dns_propagated (some ["1.1.1.1"])
        (fun _ _ => Except.ok [["tok"]]) "n" "tok").2 = true := by
  have h := has_propagated_correct (some ["1.1.1.1"])
    (fun _ _ => Except.ok [["tok"]]) "n" "tok"
  exact ⟨h.1, (h.2.2.2.1).mpr ⟨[["tok"]], rfl, ["tok"], by simp, by simp⟩⟩

/-- C7: `delete_txt_record` on an argument list whose first element is
the empty string (Python-falsy) returns at once: empty event trace — so
no zone lookup, record lookup or delete request — and no error, with the
provider state untouched. -/
theorem delete_empty_domain (M : Model) (st : Provider) (args : List String)
    (tk : String) (h0 : args.get? 0 = some "") (h2 : args.get? 2 = some tk) :
    delete_txt_record M st args = ([], Except.ok st) := by
  unfold delete_txt_record
  rw [h0, h2]
  simp

theorem delete_empty_domain_w :
    delete_txt_record sampleModel ⟨[], 0⟩ ["", "p", "t"] =
      ([], Except.ok (⟨[], 0⟩ : Provider)) :=
  delete_empty_domain sampleModel ⟨[], 0⟩ ["", "p", "t"] "t" rfl rfl

lemma zone_lookup_loop_found (zl : AuthHeader → String → List String)
    (tld : String) :
    ∀ (hs : List AuthHeader) (i : Nat), i < hs.length →
      (∀ j, j < i → zl (hs.getD j (AuthHeader.bearer "")) tld = []) →
      zl (hs.getD i (AuthHeader.bearer "")) tld ≠ [] →
      zone_lookup_loop zl tld hs =
        ((hs.take (i + 1)).map (fun a => Ev.zoneGet a tld),
         some (hs.getD i (AuthHeader.bearer ""),
           (zl (hs.getD i (AuthHeader.bearer "")) tld).headD "")) := by
  intro hs
  induction hs with
  | nil => intro i hi; simp at hi
  | cons a rest ih =>
      intro i hi hprev hfound
      cases i with
      | zero =>
          simp only [List.getD_cons_zero] at hfound
          simp [zone_lookup_loop, hfound]
      | succ i2 =>
          have ha : zl a tld = [] := by
            have := hprev 0 (Nat.succ_pos i2)
            simpa using this
          have hrec := ih i2 (by simpa using hi)
            (fun j hj => by simpa using hprev (j + 1) (Nat.succ_lt_succ hj))
            (by simpa using hfound)
          simp only [zone_lookup_loop, ha, if_pos rfl, hrec]
          simp

lemma zone_lookup_loop_none (zl : AuthHeader → String → List String)
    (tld : String) :
    ∀ hs : List AuthHeader, (∀ a ∈ hs, zl a tld = []) →
      zone_lookup_loop zl tld hs =
        (hs.map (fun a => Ev.zoneGet a tld), none) := by
  intro hs
  induction hs with
  | nil => intro _; rfl
  | cons a rest ih =>
      intro h
      have ha : zl a tld = [] := h a (List.mem_cons_self a rest)
      simp only [zone_lookup_loop, ha, if_pos rfl,
        ih (fun b hb => h b (List.mem_cons_of_mem a hb))]
      simp

lemma zone_lookup_loop_events (zl : AuthHeader → String → List String)
    (tld : String) :
    ∀ hs : List AuthHeader, ∀ e ∈ (zone_lookup_loop zl tld hs).1,
      ∃ a, e = Ev.zoneGet a tld := by
  intro hs
  induction hs with
  | nil => intro e he; simp [zone_lookup_loop] at he
  | cons a rest ih =>
      intro e he
      by_cases ha : zl a tld = []
      · rcases hl : zone_lookup_loop zl tld rest with ⟨tr, res⟩
        rw [zone_lookup_loop, if_pos ha, hl] at he
        simp only [List.mem_cons] at he
        rcases he with he | he
        · exact ⟨a, he⟩
        · exact ih e (by rw [hl]; exact he)
      · rw [zone_lookup_loop, if_neg ha] at he
        simp only [List.mem_singleton] at he
        exact ⟨a, he⟩

lemma get_zone_id_events (M : Model) (domain : String) :
    ∀ e ∈ (_get_zone_id M domain).1,
      ∃ a, e = Ev.zoneGet a (M.fld ("http://" ++ domain)) := by
  intro e he
  unfold _get_zone_id at he
  rcases hl : zone_lookup_loop M.zoneList (M.fld ("http://" ++ domain))
      M.headers with ⟨tr, res⟩
  rw [hl] at he
  cases res with
  | none =>
      simp only at he
      exact zone_lookup_loop_events M.zoneList _ M.headers e (by rw [hl]; exact he)
  | some p =>
      simp only at he
      exact zone_lookup_loop_events M.zoneList _ M.headers e (by rw [hl]; exact he)

/-- C3: `_get_zone_id` queries the zone-list endpoint once per auth
context in declared order, stopping at the first whose result set is
non-empty and returning that context with the first result's id (first
conjunct: the trace is exactly one GET per context up to and including
the winning one); when every context's result set is empty it exits the
process with code 1, logging the token-permissions message when
`CF_API_TOKEN` is in the environment — which, by the construction of
`CF_HEADERS`, is exactly when token auth is in use — and the zone-absent
message otherwise (second conjunct: one GET per context, then the
fatal error). -/
theorem get_zone_id_correct (M : Model) (domain : String) :
    (∀ i, i < M.headers.length →
      (∀ j, j < i →
        M.zoneList (M.headers.getD j (AuthHeader.bearer ""))
          (M.fld ("http://" ++ domain)) = []) →
      M.zoneList (M.headers.getD i (AuthHeader.bearer ""))
          (M.fld ("http://" ++ domain)) ≠ [] →
      _get_zone_id M domain =
        ((M.headers.take (i + 1)).map
            (fun a => Ev.zoneGet a (M.fld ("http://" ++ domain))),
         Except.ok (M.headers.getD i (AuthHeader.bearer ""),
           (M.zoneList (M.headers.getD i (AuthHeader.bearer ""))
             (M.fld ("http://" ++ domain))).headD ""))) ∧
    ((∀ a ∈ M.headers,
        M.zoneList a (M.fld ("http://" ++ domain)) = []) →
      _get_zone_id M domain =
        (M.headers.map (fun a => Ev.zoneGet a (M.fld ("http://" ++ domain))),
         Except.error (Err.exit 1
           (if M.tokenSet then FatalMsg.tokenPerms else FatalMsg.zoneAbsent)))) := by
  constructor
  · intro i hi hprev hfound
    unfold _get_zone_id
    rw [zone_lookup_loop_found M.zoneList _ M.headers i hi hprev hfound]
  · intro hall
    unfold _get_zone_id
    rw [zone_lookup_loop_none M.zoneList _ M.headers hall]

theorem get_zone_id_correct_w :
    _get_zone_id sampleModel "example.com" =
      ((sampleModel.headers.take 2).map
          (fun a => Ev.zoneGet a (sampleModel.fld ("http://" ++ "example.com"))),
       Except.ok (sampleModel.headers.getD 1 (AuthHeader.bearer ""),
         (sampleModel.zoneList (sampleModel.headers.getD 1 (AuthHeader.bearer ""))
           (sampleModel.fld ("http://" ++ "example.com"))).headD "")) :=
  (get_zone_id_correct sampleModel "example.com").1 1 (by decide)
    (by
      intro j hj
      have hj0 : j = 0 := by omega
      subst hj0
      rfl)
    (by decide)

lemma head?_mem {α : Type} {l : List α} {x : α} (h : l.head? = some x) :
    x ∈ l := by
  cases l with
  | nil => simp at h
  | cons a as =>
      simp only [List.head?_cons, Option.some.injEq] at h
      subst h
      exact List.mem_cons_self a as

lemma countPosts_zone (M : Model) (domain : String) :
    countPosts (_get_zone_id M domain).1 = 0 := by
  unfold countPosts
  rw [List.length_eq_zero, List.filter_eq_nil_iff]
  intro e he
  obtain ⟨a, rfl⟩ := get_zone_id_events M domain e he
  simp [isPost]

/-- C4: `create_txt_record` is idempotent against the provider: starting
from a state with no record matching `_acme-challenge.<domain>` + token
in the resolved zone, the first call issues exactly one creation POST,
and the second identical call finds the record the first one created,
logs and returns — zero POSTs — leaving the provider state unchanged. -/
theorem create_txt_record_idempotent (M : Model) (st : Provider)
    (d ch tok : String) (auth : AuthHeader) (zone : String)
    (hz : (_get_zone_id M d).2 = Except.ok (auth, zone))
    (hfresh : M.freshId st.nextId ≠ "")
    (hnone : st.records.filter (recMatches zone ("_acme-challenge." ++ d) tok) = []) :
    ∃ st1 tr1 tr2,
      create_txt_record M st [d, ch, tok] = (tr1, Except.ok st1) ∧
      countPosts tr1 = 1 ∧
      create_txt_record M st1 [d, ch, tok] = (tr2, Except.ok st1) ∧
      countPosts tr2 = 0 := by
  rcases hg : _get_zone_id M d with ⟨trZ, rz⟩
  have hz0 : countPosts trZ = 0 := by
    have := countPosts_zone M d
    rw [hg] at this
    exact this
  rw [hg] at hz
  have hrz : rz = Except.ok (auth, zone) := hz
  subst hrz
  set name := "_acme-challenge." ++ d with hname
  set stored : TxtRec :=
    { typ := "TXT", name := name, content := tok, ttl := 120,
      id := M.freshId st.nextId } with hstored
  set st1 : Provider :=
    { records := st.records ++ [(zone, stored)], nextId := st.nextId + 1 }
    with hst1
  have h1 : create_txt_record M st [d, ch, tok] =
      (trZ ++ [Ev.recGet auth zone name tok] ++
         [Ev.recPost auth zone ⟨"TXT", name, tok, 120⟩],
       Except.ok st1) := by
    simp only [create_txt_record, hg, _get_txt_record_id, hnone,
      List.head?_nil, Option.map_none', pyTruthy, Bool.false_eq_true,
      if_false]
  have hmatch : recMatches zone name tok (zone, stored) = true := by
    simp [recMatches, hstored]
  have hlook : (st1.records.filter (recMatches zone name tok)).head? =
      some (zone, stored) := by
    rw [hst1]
    simp only [List.filter_append, hnone, List.nil_append]
    simp [hmatch]
  have htruthy : pyTruthy (some stored.id) = true := by
    simp [pyTruthy, hstored, bne_iff_ne, hfresh]
  have h2 : create_txt_record M st1 [d, ch, tok] =
      (trZ ++ [Ev.recGet auth zone name tok], Except.ok st1) := by
    simp only [create_txt_record, hg, _get_txt_record_id, hlook,
      Option.map_some', htruthy, if_true]
  refine ⟨st1, _, _, h1, ?_, h2, ?_⟩
  · unfold countPosts at hz0 ⊢
    simp only [List.filter_append, List.length_append, hz0]
    simp [isPost]
  · unfold countPosts at hz0 ⊢
    simp only [List.filter_append, List.length_append, hz0]
    simp [isPost]

theorem create_txt_record_idempotent_w :
    ∃ st1 tr1 tr2,
      create_txt_record sampleModel ⟨[], 0⟩ ["example.com", "p", "tok"] =
        (tr1, Except.ok st1) ∧
      countPosts tr1 = 1 ∧
      create_txt_record sampleModel st1 ["example.com", "p", "tok"] =
        (tr2, Except.ok st1) ∧
      countPosts tr2 = 0 :=
  create_txt_record_idempotent sampleModel ⟨[], 0⟩ "example.com" "p" "tok"
    (AuthHeader.bearer "t2") "z9" rfl (by decide) rfl

/-- C8: every record-level operation of a create or delete invocation
for domain `d` and token `tok` uses the record name
`_acme-challenge.` ++ `d` exactly: the create-side lookup and the
delete-side lookup filter on that name with the token as content, every
creation POST carries the fixed payload `type TXT, that name, the
token, TTL 120`, and every delete targets the id of a stored record
with that name, type TXT and the token as content. -/
theorem record_name_ttl_invariant (M : Model) (st : Provider)
    (d ch tok : String) :
    (∀ auth zone name content,
       Ev.recGet auth zone name content ∈ (create_txt_record M st [d, ch, tok]).1 →
       name = "_acme-challenge." ++ d ∧ content = tok) ∧
    (∀ auth zone p,
       Ev.recPost auth zone p ∈ (create_txt_record M st [d, ch, tok]).1 →
       p = TxtPayload.mk "TXT" ("_acme-challenge." ++ d) tok 120) ∧
    (∀ auth zone name content,
       Ev.recGet auth zone name content ∈ (delete_txt_record M st [d, ch, tok]).1 →
       name = "_acme-challenge." ++ d ∧ content = tok) ∧
    (∀ auth zone rid,
       Ev.recDelete auth zone rid ∈ (delete_txt_record M st [d, ch, tok]).1 →
       ∃ pr ∈ st.records, pr.2.id = rid ∧ pr.2.typ = "TXT" ∧
         pr.2.name = "_acme-challenge." ++ d ∧ pr.2.content = tok) := by
  rcases hg : _get_zone_id M d with ⟨trZ, rz⟩
  have hzev : ∀ e ∈ trZ, ∃ a, e = Ev.zoneGet a (M.fld ("http://" ++ d)) :=
    fun e he => get_zone_id_events M d e (by rw [hg]; exact he)
  cases rz with
  | error e =>
      refine ⟨?_, ?_, ?_, ?_⟩
      · intro auth zone name content hmem
        simp only [create_txt_record, hg] at hmem
        obtain ⟨a, ha⟩ := hzev _ hmem
        simp at ha
      · intro auth zone p hmem
        simp only [create_txt_record, hg] at hmem
        obtain ⟨a, ha⟩ := hzev _ hmem
        simp at ha
      · intro auth zone name content hmem
        simp only [delete_txt_record, List.get?] at hmem
        by_cases hd : d = ""
        · rw [if_pos hd] at hmem
          simp at hmem
        · rw [if_neg hd] at hmem
          simp only [hg] at hmem
          obtain ⟨a, ha⟩ := hzev _ hmem
          simp at ha
      · intro auth zone rid hmem
        simp only [delete_txt_record, List.get?] at hmem
        by_cases hd : d = ""
        · rw [if_pos hd] at hmem
          simp at hmem
        · rw [if_neg hd] at hmem
          simp only [hg] at hmem
          obtain ⟨a, ha⟩ := hzev _ hmem
          simp at ha
  | ok pz =>
      rcases pz with ⟨auth0, zone0⟩
      refine ⟨?_, ?_, ?_, ?_⟩
      · intro auth zone name content hmem
        simp only [create_txt_record, hg, _get_txt_record_id] at hmem
        cases hpt : pyTruthy
            (((st.records.filter
                (recMatches zone0 ("_acme-challenge." ++ d) tok)).head?).map
              (fun p => p.2.id)) with
        | true =>
            rw [hpt] at hmem
            simp only [if_true, List.mem_append, List.mem_singleton] at hmem
            rcases hmem with hmem | hmem
            · obtain ⟨a, ha⟩ := hzev _ hmem
              simp at ha
            · rw [Ev.recGet.injEq] at hmem
              exact ⟨hmem.2.2.1, hmem.2.2.2⟩
        | false =>
            rw [hpt] at hmem
            simp only [Bool.false_eq_true, if_false, List.append_assoc,
              List.mem_append, List.mem_singleton, List.mem_cons,
              List.not_mem_nil, or_false] at hmem
            rcases hmem with hmem | hmem | hmem
            · obtain ⟨a, ha⟩ := hzev _ hmem
              simp at ha
            · rw [Ev.recGet.injEq] at hmem
              exact ⟨hmem.2.2.1, hmem.2.2.2⟩
            · simp at hmem
      · intro auth zone p hmem
        simp only [create_txt_record, hg, _get_txt_record_id] at hmem
        cases hpt : pyTruthy
            (((st.records.filter
                (recMatches zone0 ("_acme-challenge." ++ d) tok)).head?).map
              (fun p => p.2.id)) with
        | true =>
            rw [hpt] at hmem
            simp only [if_true, List.mem_append, List.mem_singleton] at hmem
            rcases hmem with hmem | hmem
            · obtain ⟨a, ha⟩ := hzev _ hmem
              simp at ha
            · simp at hmem
        | false =>
            rw [hpt] at hmem
            simp only [Bool.false_eq_true, if_false, List.append_assoc,
              List.mem_append, List.mem_singleton, List.mem_cons,
              List.not_mem_nil, or_false] at hmem
            rcases hmem with hmem | hmem | hmem
            · obtain ⟨a, ha⟩ := hzev _ hmem
              simp at ha
            · simp at hmem
            · rw [Ev.recPost.injEq] at hmem
              exact hmem.2.2
      · intro auth zone name content hmem
        simp only [delete_txt_record, List.get?] at hmem
        by_cases hd : d = ""
        · rw [if_pos hd] at hmem
          simp at hmem
        · rw [if_neg hd] at hmem
          simp only [hg, _get_txt_record_id] at hmem
          cases hlook : (st.records.filter
              (recMatches zone0 ("_acme-challenge." ++ d) tok)).head? with
          | none =>
              rw [hlook] at hmem
              simp only [Option.map_none', List.mem_append,
                List.mem_singleton] at hmem
              rcases hmem with hmem | hmem
              · obtain ⟨a, ha⟩ := hzev _ hmem
                simp at ha
              · rw [Ev.recGet.injEq] at hmem
                exact ⟨hmem.2.2.1, hmem.2.2.2⟩
          | some pr =>
              rw [hlook] at hmem
              simp only [Option.map_some'] at hmem
              cases hne : pr.2.id != "" with
              | true =>
                  rw [hne] at hmem
                  simp only [if_true, List.append_assoc, List.mem_append,
                    List.mem_singleton, List.mem_cons, List.not_mem_nil,
                    or_false] at hmem
                  rcases hmem with hmem | hmem | hmem
                  · obtain ⟨a, ha⟩ := hzev _ hmem
                    simp at ha
                  · rw [Ev.recGet.injEq] at hmem
                    exact ⟨hmem.2.2.1, hmem.2.2.2⟩
                  · simp at hmem
              | false =>
                  rw [hne] at hmem
                  simp only [Bool.false_eq_true, if_false, List.mem_append,
                    List.mem_singleton] at hmem
                  rcases hmem with hmem | hmem
                  · obtain ⟨a, ha⟩ := hzev _ hmem
                    simp at ha
                  · rw [Ev.recGet.injEq] at hmem
                    exact ⟨hmem.2.2.1, hmem.2.2.2⟩
      · intro auth zone rid hmem
        simp only [delete_txt_record, List.get?] at hmem
        by_cases hd : d = ""
        · rw [if_pos hd] at hmem
          simp at hmem
        · rw [if_neg hd] at hmem
          simp only [hg, _get_txt_record_id] at hmem
          cases hlook : (st.records.filter
              (recMatches zone0 ("_acme-challenge." ++ d) tok)).head? with
          | none =>
              rw [hlook] at hmem
              simp only [Option.map_none', List.mem_append,
                List.mem_singleton] at hmem
              rcases hmem with hmem | hmem
              · obtain ⟨a, ha⟩ := hzev _ hmem
                simp at ha
              · simp at hmem
          | some pr =>
              have hprmem : pr ∈ st.records.filter
                  (recMatches zone0 ("_acme-challenge." ++ d) tok) :=
                head?_mem hlook
              have hin : pr ∈ st.records := List.mem_of_mem_filter hprmem
              have hp : recMatches zone0 ("_acme-challenge." ++ d) tok pr = true :=
                List.of_mem_filter hprmem
              rw [hlook] at hmem
              simp only [Option.map_some'] at hmem
              cases hne : pr.2.id != "" with
              | true =>
                  rw [hne] at hmem
                  simp only [if_true, List.append_assoc, List.mem_append,
                    List.mem_singleton, List.mem_cons, List.not_mem_nil,
                    or_false] at hmem
                  rcases hmem with hmem | hmem | hmem
                  · obtain ⟨a, ha⟩ := hzev _ hmem
                    simp at ha
                  · simp at hmem
                  · rw [Ev.recDelete.injEq] at hmem
                    refine ⟨pr, hin, hmem.2.2.symm, ?_⟩
                    simp only [recMatches, Bool.and_eq_true, beq_iff_eq] at hp
                    exact ⟨hp.1.1.2, hp.1.2, hp.2⟩
              | false =>
                  rw [hne] at hmem
                  simp only [Bool.false_eq_true, if_false, List.mem_append,
                    List.mem_singleton] at hmem
                  rcases hmem with hmem | hmem
                  · obtain ⟨a, ha⟩ := hzev _ hmem
                    simp at ha
                  · simp at hmem

theorem record_name_ttl_invariant_w :
    ("_acme-challenge.example.com" = "_acme-challenge." ++ "example.com" ∧
      "tok" = "tok") ∧
    TxtPayload.mk "TXT" "_acme-challenge.example.com" "tok" 120 =
      TxtPayload.mk "TXT" ("_acme-challenge." ++ "example.com") "tok" 120 := by
  have h := record_name_ttl_invariant sampleModel ⟨[], 0⟩ "example.com" "p" "tok"
  refine ⟨h.1 (AuthHeader.bearer "t2") "z9" "_acme-challenge.example.com" "tok" ?_,
          h.2.1 (AuthHeader.bearer "t2") "z9"
            (TxtPayload.mk "TXT" "_acme-challenge.example.com" "tok" 120) ?_⟩
  · show Ev.recGet (AuthHeader.bearer "t2") "z9" "_acme-challenge.example.com"
        "tok" ∈ (create_txt_record sampleModel ⟨[], 0⟩ ["example.com", "p", "tok"]).1
    decide
  · show Ev.recPost (AuthHeader.bearer "t2") "z9"
        (TxtPayload.mk "TXT" "_acme-challenge.example.com" "tok" 120) ∈
      (create_txt_record sampleModel ⟨[], 0⟩ ["example.com", "p", "tok"]).1
    decide

lemma chunks3_flat_append (rest : List String) :
    ∀ ts : List (String × String × String),
      chunks3 (flatTriples ts ++ rest) =
        ts.map tripleChunk ++ chunks3 rest := by
  intro ts
  induction ts with
  | nil => rfl
  | cons t ts ih =>
      rcases t with ⟨a, b, c⟩
      simp only [flatTriples, List.cons_append, chunks3, List.map_cons,
        tripleChunk, List.append_eq, ih]

lemma chunks3_flat (ts : List (String × String × String)) :
    chunks3 (flatTriples ts) = ts.map tripleChunk := by
  have h := chunks3_flat_append [] ts
  simpa [chunks3] using h

lemma run_creates_append (M : Model) :
    ∀ (cs ds : List (List String)) (st : Provider),
      run_creates M st (cs ++ ds) =
        (match run_creates M st cs with
         | (tr, Except.error e) => (tr, Except.error e)
         | (tr, Except.ok st2) =>
             ((tr ++ (run_creates M st2 ds).1), (run_creates M st2 ds).2)) := by
  intro cs
  induction cs with
  | nil => intro ds st; simp [run_creates]
  | cons c cs ih =>
      intro ds st
      rcases hc : create_txt_record M st c with ⟨tr, r⟩
      cases r with
      | error e => simp only [List.cons_append, run_creates, hc]
      | ok st2 =>
          rcases hr : run_creates M st2 cs with ⟨tr2, r2⟩
          cases r2 with
          | error e =>
              simp only [List.cons_append, run_creates, hc, List.append_eq,
                ih, hr, List.append_assoc]
          | ok st3 =>
              simp only [List.cons_append, run_creates, hc, List.append_eq,
                ih, hr, List.append_assoc]

lemma run_deletes_append (M : Model) :
    ∀ (cs ds : List (List String)) (st : Provider),
      run_deletes M st (cs ++ ds) =
        (match run_deletes M st cs with
         | (tr, Except.error e) => (tr, Except.error e)
         | (tr, Except.ok st2) =>
             ((tr ++ (run_deletes M st2 ds).1), (run_deletes M st2 ds).2)) := by
  intro cs
  induction cs with
  | nil => intro ds st; simp [run_deletes]
  | cons c cs ih =>
      intro ds st
      rcases hc : delete_txt_record M st c with ⟨tr, r⟩
      cases r with
      | error e => simp only [List.cons_append, run_deletes, hc]
      | ok st2 =>
          rcases hr : run_deletes M st2 cs with ⟨tr2, r2⟩
          cases r2 with
          | error e =>
              simp only [List.cons_append, run_deletes, hc, List.append_eq,
                ih, hr, List.append_assoc]
          | ok st3 =>
              simp only [List.cons_append, run_deletes, hc, List.append_eq,
                ih, hr, List.append_assoc]

lemma create_short_chunk_valueError (M : Model) (st : Provider)
    (rest : List String) (hlen : rest.length = 1 ∨ rest.length = 2) :
    create_txt_record M st rest = ([], Except.error Err.valueError) := by
  cases rest with
  | nil => simp at hlen
  | cons a rest1 =>
      cases rest1 with
      | nil => rfl
      | cons b rest2 =>
          cases rest2 with
          | nil => rfl
          | cons c rest3 =>
              cases rest3 with
              | nil => simp at hlen
              | cons e rest4 => rfl

lemma delete_short_chunk_indexError (M : Model) (st : Provider)
    (rest : List String) (hlen : rest.length = 1 ∨ rest.length = 2) :
    delete_txt_record M st rest = ([], Except.error Err.indexError) := by
  cases rest with
  | nil => simp at hlen
  | cons a rest1 =>
      cases rest1 with
      | nil => rfl
      | cons b rest2 =>
          cases rest2 with
          | nil => rfl
          | cons c rest3 => simp [List.length_cons] at hlen

lemma chunks3_short (rest : List String)
    (hlen : rest.length = 1 ∨ rest.length = 2) :
    chunks3 rest = [rest] := by
  cases rest with
  | nil => simp at hlen
  | cons a rest1 =>
      cases rest1 with
      | nil => rfl
      | cons b rest2 =>
          cases rest2 with
          | nil => rfl
          | cons c rest3 => simp [List.length_cons] at hlen

/-- C10: on an argument list that is `N` complete triples followed by a
trailing group of one or two elements, both batch entry points process
the complete leading triples (trace and state exactly as for the leading
triples alone) and then fail on the partial group before it produces any
provider operation: `create_all_txt_records` raises the tuple-unpacking
`ValueError` (so no settle sleep and no propagation poll happen either),
and `delete_all_txt_records` raises `IndexError` at `args[2]`; in both
cases the partial group contributes no event. -/
theorem trailing_group_rejected (M : Model) (settle : Nat)
    (dns : Nat → DnsRes) (st : Provider) (fuel : Nat)
    (ts : List (String × String × String)) (rest : List String)
    (tr1 trD : List Ev) (st1 st2 : Provider)
    (hlen : rest.length = 1 ∨ rest.length = 2)
    (hc : run_creates M st (ts.map tripleChunk) = (tr1, Except.ok st1))
    (hd : run_deletes M st (ts.map tripleChunk) = (trD, Except.ok st2)) :
    create_all_txt_records M settle dns st (flatTriples ts ++ rest) fuel =
      some (tr1, Except.error Err.valueError) ∧
    delete_all_txt_records M st (flatTriples ts ++ rest) =
      (trD, Except.error Err.indexError) := by
  have hch : chunks3 (flatTriples ts ++ rest) =
      ts.map tripleChunk ++ [rest] := by
    rw [chunks3_flat_append rest ts, chunks3_short rest hlen]
  constructor
  · unfold create_all_txt_records
    rw [hch, run_creates_append, hc]
    simp only [run_creates, create_short_chunk_valueError M st1 rest hlen,
      List.append_nil]
  · unfold delete_all_txt_records
    rw [hch, run_deletes_append, hd]
    simp only [run_deletes, delete_short_chunk_indexError M st2 rest hlen,
      List.append_nil]

theorem trailing_group_rejected_w :
    create_all_txt_records sampleModel 10 sampleDns ⟨[], 0⟩
        (flatTriples [] ++ ["only-domain"]) 1 =
      some ([], Except.error Err.valueError) ∧
    delete_all_txt_records sampleModel ⟨[], 0⟩
        (flatTriples [] ++ ["only-domain"]) =
      ([], Except.error Err.indexError) :=
  trailing_group_rejected sampleModel 10 sampleDns ⟨[], 0⟩ 1 [] ["only-domain"]
    [] [] ⟨[], 0⟩ ⟨[], 0⟩ (Or.inl rfl) rfl rfl

lemma create_txt_record_events (M : Model) (st : Provider)
    (args : List String) :
    ∀ e ∈ (create_txt_record M st args).1, isProviderEv e = true := by
  intro e he
  rcases args with _ | ⟨d, args1⟩
  · simp [create_txt_record] at he
  rcases args1 with _ | ⟨c2, args2⟩
  · simp [create_txt_record] at he
  rcases args2 with _ | ⟨c3, args3⟩
  · simp [create_txt_record] at he
  rcases args3 with _ | ⟨c4, args4⟩
  case cons => simp [create_txt_record] at he
  rcases hg : _get_zone_id M d with ⟨trZ, rz⟩
  have hzev : ∀ e2 ∈ trZ, ∃ a, e2 = Ev.zoneGet a (M.fld ("http://" ++ d)) :=
    fun e2 he2 => get_zone_id_events M d e2 (by rw [hg]; exact he2)
  cases rz with
  | error er =>
      simp only [create_txt_record, hg] at he
      obtain ⟨a, rfl⟩ := hzev _ he
      rfl
  | ok pz =>
      rcases pz with ⟨auth0, zone0⟩
      simp only [create_txt_record, hg, _get_txt_record_id] at he
      split at he
      · rw [List.mem_append] at he
        rcases he with he | he
        · obtain ⟨a, rfl⟩ := hzev _ he
          rfl
        · simp only [List.mem_singleton] at he
          subst he
          rfl
      · simp only [List.append_assoc, List.mem_append, List.mem_singleton,
          List.mem_cons, List.not_mem_nil, or_false] at he
        rcases he with he | he | he
        · obtain ⟨a, rfl⟩ := hzev _ he
          rfl
        · subst he
          rfl
        · subst he
          rfl

lemma run_creates_events (M : Model) :
    ∀ (cs : List (List String)) (st : Provider),
      ∀ e ∈ (run_creates M st cs).1, isProviderEv e = true := by
  intro cs
  induction cs with
  | nil => intro st e he; simp [run_creates] at he
  | cons c cs ih =>
      intro st e he
      rcases hc : create_txt_record M st c with ⟨tr, r⟩
      cases r with
      | error er =>
          simp only [run_creates, hc] at he
          exact create_txt_record_events M st c e (by rw [hc]; exact he)
      | ok st2 =>
          simp only [run_creates, hc, List.mem_append] at he
          rcases he with he | he
          · exact create_txt_record_events M st c e (by rw [hc]; exact he)
          · exact ih st2 e he

lemma pollDomain_spec (M : Model) (dns : Nat → DnsRes) (name token : String) :
    ∀ (fuel clock : Nat) (tr : List Ev) (c2 : Nat),
      pollDomain M dns name token clock fuel = some (tr, c2) →
      ∃ k, tr = pollGroup (effectiveServers M.dnsServers) name k ∧
        c2 = clock + k + 1 ∧
        (∀ j, j < k → checkAt M dns name token (clock + j) = false) ∧
        checkAt M dns name token (clock + k) = true := by
  intro fuel
  induction fuel with
  | zero => intro clock tr c2 h; simp [pollDomain] at h
  | succ fuel ih =>
      intro clock tr c2 h
      rcases hh : _has_dns_propagated M.dnsServers (fun _ _ => dns clock)
          name token with ⟨tr0, ok0⟩
      have htr0 : tr0 = [Ev.dnsQuery (effectiveServers M.dnsServers) name] := by
        have hfst : (_has_dns_propagated M.dnsServers (fun _ _ => dns clock)
            name token).1 = [Ev.dnsQuery (effectiveServers M.dnsServers) name] := rfl
        rw [hh] at hfst
        exact hfst
      have hok0 : ok0 = checkAt M dns name token clock := by
        have hsnd : (_has_dns_propagated M.dnsServers (fun _ _ => dns clock)
            name token).2 = checkAt M dns name token clock := rfl
        rw [hh] at hsnd
        exact hsnd
      simp only [pollDomain, hh] at h
      cases hchk : checkAt M dns name token clock with
      | true =>
          rw [hok0.trans hchk] at h
          simp only [if_true] at h
          injection h with h2
          rw [Prod.mk.injEq] at h2
          obtain ⟨h21, h22⟩ := h2
          refine ⟨0, ?_, ?_, ?_, ?_⟩
          · rw [← h21, htr0]; rfl
          · omega
          · intro j hj; omega
          · rw [Nat.add_zero]; exact hchk
      | false =>
          rw [hok0.trans hchk] at h
          simp only [Bool.false_eq_true, if_false] at h
          cases hrec : pollDomain M dns name token (clock + 1) fuel with
          | none => rw [hrec] at h; simp at h
          | some p =>
              rcases p with ⟨tr2, c3⟩
              rw [hrec] at h
              simp only [Option.some.injEq, Prod.mk.injEq] at h
              obtain ⟨h1, h2⟩ := h
              obtain ⟨k2, htr2, hc3, hfail, hsucc⟩ := ih (clock + 1) tr2 c3 hrec
              refine ⟨k2 + 1, ?_, ?_, ?_, ?_⟩
              · rw [← h1, htr0, htr2, pollGroup]
                rfl
              · omega
              · intro j hj
                cases j with
                | zero => rw [Nat.add_zero]; exact hchk
                | succ j2 =>
                    have := hfail j2 (by omega)
                    rw [show clock + (j2 + 1) = clock + 1 + j2 by omega]
                    exact this
              · rw [show clock + (k2 + 1) = clock + 1 + k2 by omega]
                exact hsucc


lemma poll_phase_spec (M : Model) (dns : Nat → DnsRes) :
    ∀ (cs : List (String × String × String)) (clock fuel : Nat)
      (tr : List Ev) (c2 : Nat),
      poll_phase M dns clock (cs.map tripleChunk) fuel =
        some (tr, Except.ok c2) →
      ∃ ks : List Nat, ks.length = cs.length ∧
        tr = (cs.zip ks).flatMap (fun p =>
          pollGroup (effectiveServers M.dnsServers)
            ("_acme-challenge." ++ p.1.1) p.2) ∧
        ∀ i, i < cs.length →
          ((∀ j, j < ks.getD i 0 →
              checkAt M dns ("_acme-challenge." ++ (cs.getD i ("", "", "")).1)
                ((cs.getD i ("", "", "")).2.2)
                (clock + pollStart ks i + j) = false) ∧
            checkAt M dns ("_acme-challenge." ++ (cs.getD i ("", "", "")).1)
              ((cs.getD i ("", "", "")).2.2)
              (clock + pollStart ks i + ks.getD i 0) = true) := by
  intro cs
  induction cs with
  | nil =>
      intro clock fuel tr c2 h
      simp only [List.map_nil, poll_phase, Option.some.injEq,
        Prod.mk.injEq] at h
      obtain ⟨h1, h2⟩ := h
      refine ⟨[], rfl, ?_, ?_⟩
      · rw [← h1]; rfl
      · intro i hi; simp at hi
  | cons t ts ih =>
      rcases t with ⟨d, ch, tok⟩
      intro clock fuel tr c2 h
      simp only [List.map_cons, tripleChunk, poll_phase,
        List.get?_cons_zero, List.get?_cons_succ] at h
      cases hpd : pollDomain M dns ("_acme-challenge." ++ d) tok clock fuel with
      | none => rw [hpd] at h; simp at h
      | some p =>
          rcases p with ⟨trH, c3⟩
          rw [hpd] at h
          dsimp only at h
          cases hpp : poll_phase M dns c3 (ts.map tripleChunk) fuel with
          | none => rw [hpp] at h; simp at h
          | some q =>
              rcases q with ⟨trT, r2⟩
              rw [hpp] at h
              dsimp only at h
              simp only [Option.some.injEq, Prod.mk.injEq] at h
              obtain ⟨hTr, hR⟩ := h
              rw [hR] at hpp
              obtain ⟨k0, htrH, hc3, hfail0, hsucc0⟩ :=
                pollDomain_spec M dns ("_acme-challenge." ++ d) tok fuel
                  clock trH c3 hpd
              obtain ⟨ks2, hlen, htrT, hidx⟩ := ih c3 fuel trT c2 hpp
              refine ⟨k0 :: ks2, by simp [hlen], ?_, ?_⟩
              · rw [← hTr, htrH, htrT]
                simp only [List.zip_cons_cons, List.flatMap_cons]
              · intro i hi
                cases i with
                | zero =>
                    have hps : pollStart (k0 :: ks2) 0 = 0 := rfl
                    simp only [List.getD_cons_zero, hps, Nat.add_zero]
                    exact ⟨fun j hj => hfail0 j hj, hsucc0⟩
                | succ i2 =>
                    have hi2 : i2 < ts.length := by simpa using hi
                    obtain ⟨hf, hs⟩ := hidx i2 hi2
                    have hps : clock + pollStart (k0 :: ks2) (i2 + 1) =
                        c3 + pollStart ks2 i2 := by
                      simp only [pollStart, List.take_succ_cons, List.sum_cons]
                      omega
                    simp only [List.getD_cons_succ]
                    constructor
                    · intro j hj
                      rw [show clock + pollStart (k0 :: ks2) (i2 + 1) + j =
                          c3 + pollStart ks2 i2 + j by omega]
                      exact hf j hj
                    · rw [show clock + pollStart (k0 :: ks2) (i2 + 1) +
                          ks2.getD i2 0 =
                          c3 + pollStart ks2 i2 + ks2.getD i2 0 by omega]
                      exact hs

/-- C1: for a batch given as a flat `3·N` argument list, a completed run
of `create_all_txt_records` has trace
`creates ++ settle sleep ++ polls`: every event before the settle sleep
is a provider HTTP call (all creates complete before the sleep), the
sleep strictly precedes every propagation poll, and the poll segment is
the concatenation, in input order, of one group per domain — each group
polling `_acme-challenge.<domain>` with a 30-second sleep after each
failed attempt (`pollGroup`), and the group ends (before the next domain
starts) exactly when `_has_dns_propagated` first returns true: the `i`-th
domain's checks are false for all `pollStart ks i + j`, `j < ks[i]`, and
true at `pollStart ks i + ks[i]`. -/
theorem create_all_ordering (M : Model) (settle : Nat) (dns : Nat → DnsRes)
    (st : Provider) (ts : List (String × String × String)) (fuel : Nat)
    (tr : List Ev) (stF : Provider)
    (h : create_all_txt_records M settle dns st (flatTriples ts) fuel =
      some (tr, Except.ok stF)) :
    ∃ tr1 ks,
      (∀ e ∈ tr1, isProviderEv e = true) ∧
      ks.length = ts.length ∧
      tr = tr1 ++ Ev.sleepEv settle ::
        ((ts.zip ks).flatMap (fun p =>
          pollGroup (effectiveServers M.dnsServers)
            ("_acme-challenge." ++ p.1.1) p.2)) ∧
      (∀ i, i < ts.length →
        ((∀ j, j < ks.getD i 0 →
            checkAt M dns ("_acme-challenge." ++ (ts.getD i ("", "", "")).1)
              ((ts.getD i ("", "", "")).2.2) (pollStart ks i + j) = false) ∧
          checkAt M dns ("_acme-challenge." ++ (ts.getD i ("", "", "")).1)
            ((ts.getD i ("", "", "")).2.2)
            (pollStart ks i + ks.getD i 0) = true)) := by
  unfold create_all_txt_records at h
  rw [chunks3_flat] at h
  rcases hrc : run_creates M st (ts.map tripleChunk) with ⟨tr1, r1⟩
  rw [hrc] at h
  dsimp only at h
  cases r1 with
  | error e => simp at h
  | ok st1 =>
      cases hpp : poll_phase M dns 0 (ts.map tripleChunk) fuel with
      | none => rw [hpp] at h; simp at h
      | some q =>
          rcases q with ⟨tr2, r2⟩
          rw [hpp] at h
          dsimp only at h
          cases r2 with
          | error e => simp [Except.map] at h
          | ok c2 =>
              simp only [Except.map, Option.some.injEq, Prod.mk.injEq] at h
              obtain ⟨hTr, hSt⟩ := h
              obtain ⟨ks, hlen, htr2, hidx⟩ :=
                poll_phase_spec M dns ts 0 fuel tr2 c2 hpp
              refine ⟨tr1, ks, ?_, hlen, ?_, ?_⟩
              · intro e he
                exact run_creates_events M (ts.map tripleChunk) st e
                  (by rw [hrc]; exact he)
              · rw [← hTr, htr2]
              · intro i hi
                have hx := hidx i hi
                simpa using hx

theorem create_all_ordering_w :
    ∃ tr1 ks,
      (∀ e ∈ tr1, isProviderEv e = true) ∧
      ks.length = ([("example.com", "p", "tok")] :
        List (String × String × String)).length ∧
      ([Ev.zoneGet (AuthHeader.bearer "t1") "example.com",
        Ev.zoneGet (AuthHeader.bearer "t2") "example.com",
        Ev.recGet (AuthHeader.bearer "t2") "z9"
          "_acme-challenge.example.com" "tok",
        Ev.recPost (AuthHeader.bearer "t2") "z9"
          (TxtPayload.mk "TXT" "_acme-challenge.example.com" "tok" 120),
        Ev.sleepEv 10,
        Ev.dnsQuery none "_acme-challenge.example.com"] : List Ev) =
        tr1 ++ Ev.sleepEv 10 ::
          ((([("example.com", "p", "tok")] :
              List (String × String × String)).zip ks).flatMap (fun p =>
            pollGroup (effectiveServers sampleModel.dnsServers)
              ("_acme-challenge." ++ p.1.1) p.2)) ∧
      (∀ i, i < ([("example.com", "p", "tok")] :
          List (String × String × String)).length →
        ((∀ j, j < ks.getD i 0 →
            checkAt sampleModel sampleDns
              ("_acme-challenge." ++
                (([("example.com", "p", "tok")] :
                  List (String × String × String)).getD i ("", "", "")).1)
              ((([("example.com", "p", "tok")] :
                List (String × String × String)).getD i ("", "", "")).2.2)
              (pollStart ks i + j) = false) ∧
          checkAt sampleModel sampleDns
            ("_acme-challenge." ++
              (([("example.com", "p", "tok")] :
                List (String × String × String)).getD i ("", "", "")).1)
            ((([("example.com", "p", "tok")] :
              List (String × String × String)).getD i ("", "", "")).2.2)
            (pollStart ks i + ks.getD i 0) = true)) :=
  create_all_ordering sampleModel 10 sampleDns ⟨[], 0⟩
    [("example.com", "p", "tok")] 1
    [Ev.zoneGet (AuthHeader.bearer "t1") "example.com",
     Ev.zoneGet (AuthHeader.bearer "t2") "example.com",
     Ev.recGet (AuthHeader.bearer "t2") "z9"
       "_acme-challenge.example.com" "tok",
     Ev.recPost (AuthHeader.bearer "t2") "z9"
       (TxtPayload.mk "TXT" "_acme-challenge.example.com" "tok" 120),
     Ev.sleepEv 10,
     Ev.dnsQuery none "_acme-challenge.example.com"]
    ⟨[("z9", TxtRec.mk "TXT" "_acme-challenge.example.com" "tok" 120 "cf0")], 1⟩
    rfl

end CFHook
